import Mathlib

/-!
A shallow embedding of the KDirWatch change-notification engine
(`src/lib/io/kdirwatch.cpp`), restricted to the state and operations needed
to settle the claims: the per-path `Entry` record with its `Client` list,
`addClient` / `removeClient`, `addEntry`'s path screening and client
registration, `removeEntry`'s reference-counted teardown, `addWatch`'s
backend-selection fallback, `stopEntryScan` / `restartEntryScan`, the stat
classifier `scanEntry`, and `emitEvent`.

Modelling conventions:
* `KDirWatch *` instance pointers become `Option Nat` (none = nullptr).
* The filesystem is passed in explicitly: a `QT_STAT` call becomes an
  `Option StatBuf` argument (`none` = stat failed / path missing).
* Backend attach/detach side effects (`inotify_add_watch`,
  `QFileSystemWatcher::addPath`, ...) are recorded as `WatchAction` trace
  tokens instead of being performed.
* Signal emission through `QMetaObject::invokeMethod(...Qt::QueuedConnection)`
  becomes a returned list of `Dispatch` records.
* The build configuration is the Unix one the spec describes:
  `HAVE_SYS_INOTIFY_H` and `HAVE_QFILESYSTEMWATCHER` both set, `Q_OS_WIN`
  unset.
* The event bit constants, entry status/mode enums, the `invalid_ctime`
  sentinel, watch-mode flags and the `Client` constructor live in
  `kdirwatch_p.h` / `kdirwatch.h`, which are not part of the sources here;
  their values are forced by the bitwise use in `kdirwatch.cpp`
  (`Deleted | Created`, `event & Deleted`, `watchModes != WatchDirOnly`)
  and are modelled accordingly.
-/

namespace KDirWatchModel

/-- Event bits (`kdirwatch_p.h` enum): `NoChange = 0`. -/
def NoChange : Nat := 0

/-- Event bit `Changed = 1`. -/
def Changed : Nat := 1

/-- Event bit `Created = 2`. -/
def Created : Nat := 2

/-- Event bit `Deleted = 4`. -/
def Deleted : Nat := 4

/-- Model of `invalid_ctime`: the `(time_t)-1` sentinel stored in `m_ctime` when no
valid timestamp is known. -/
def invalid_ctime : Int := -1

/-- Watch mode `KDirWatch::WatchDirOnly = 0`. -/
def WatchDirOnly : Nat := 0

/-- Watch mode `KDirWatch::WatchFiles = 1`. -/
def WatchFiles : Nat := 1

/-- Watch mode `KDirWatch::WatchSubDirs = 2`. -/
def WatchSubDirs : Nat := 2

/-- Model of `KDirWatchPrivate::entryStatus`. -/
inductive EntryStatus where
  | Normal
  | NonExistent
deriving DecidableEq, Repr

/-- Model of `KDirWatchPrivate::entryMode`. -/
inductive EntryMode where
  | UnknownMode
  | StatMode
  | INotifyMode
  | QFSWatchMode
deriving DecidableEq, Repr

/-- Model of `KDirWatch::Method` (`kdirwatch.h`): the three user-selectable backends. -/
inductive Method where
  | INotify
  | QFSWatch
  | Stat
deriving DecidableEq, Repr

/-- Model of `KDirWatchPrivate::Client`: one watcher instance's registered interest in
one entry. The constructor used by `addClient`'s `emplace_back(instance,
watchModes)` initialises `count = 1`, `watchingStopped = false`,
`pending = NoChange`. -/
structure Client where
  instanceId : Option Nat
  count : Int
  m_watchModes : Nat
  watchingStopped : Bool
  pending : Nat
deriving DecidableEq, Repr

/-- Model of `KDirWatchPrivate::Entry` (the fields the claims touch). Sub-entry
pointers (`m_entries`) are modelled by the sub-entries' map keys (paths). -/
structure Entry where
  path : String
  isDir : Bool
  m_status : EntryStatus
  m_mode : EntryMode
  m_ctime : Int
  m_nlink : Int
  m_ino : Nat
  dirty : Bool
  msecLeft : Int
  freq : Int
  m_clients : List Client
  m_entries : List String
deriving DecidableEq, Repr

/-- Result of a successful `QT_STAT`. -/
structure StatBuf where
  st_ctime : Int
  st_mtime : Int
  st_ino : Nat
  st_nlink : Int
  /-- Model of `(st_mode & QT_STAT_MASK) == QT_STAT_DIR`. -/
  st_isDir : Bool := false
deriving DecidableEq, Repr

/-- Model of `Entry::addClient` body, on the client list: find the first record for
this instance and bump its `count` (overwriting the watch modes), else
append a fresh record. -/
def addClientGo (i : Nat) (watchModes : Nat) : List Client → List Client
  | [] => [⟨some i, 1, watchModes, false, NoChange⟩]
  | c :: rest =>
    if c.instanceId = some i then
      { c with count := c.count + 1, m_watchModes := watchModes } :: rest
    else
      c :: addClientGo i watchModes rest

/-- Model of `KDirWatchPrivate::Entry::addClient` (kdirwatch.cpp:475): a null
instance is rejected up front and the entry is left untouched. -/
def Entry.addClient (e : Entry) (instanceId : Option Nat) (watchModes : Nat) : Entry :=
  match instanceId with
  | none => e
  | some i => { e with m_clients := addClientGo i watchModes e.m_clients }

/-- Model of `Entry::removeClient` body on the client list: decrement the first
matching record's `count`, erasing it when the count reaches zero. -/
def removeClientGo (instanceId : Option Nat) : List Client → List Client
  | [] => []
  | c :: rest =>
    if c.instanceId = instanceId then
      if c.count - 1 = 0 then rest else { c with count := c.count - 1 } :: rest
    else
      c :: removeClientGo instanceId rest

/-- Model of `KDirWatchPrivate::Entry::removeClient` (kdirwatch.cpp:492). -/
def Entry.removeClient (e : Entry) (instanceId : Option Nat) : Entry :=
  { e with m_clients := removeClientGo instanceId e.m_clients }

/-- Model of `Entry::findInstance` as a membership test on the client list. -/
def hasInstance (instanceId : Option Nat) (cs : List Client) : Bool :=
  cs.any (fun c => c.instanceId = instanceId)

/-- Model of `Entry::clientCount`: sum of the per-client registration counts. -/
def Entry.clientCount (e : Entry) : Int :=
  (e.m_clients.map Client.count).sum

/-! String helpers: kernel-evaluable models of the `QString` operations used
by `kdirwatch.cpp` (`startsWith`, `endsWith`, `chop`, `isEmpty`, `length`). -/

/-- Model of `QString::startsWith`. -/
def strStartsWith (s pre : String) : Bool := pre.data.isPrefixOf s.data

/-- Model of `QString::endsWith`. -/
def strEndsWith (s suf : String) : Bool := suf.data.isSuffixOf s.data

/-- Model of `QString::chop(n)` (drop the last `n` characters). -/
def strDropRight (s : String) (n : Nat) : String :=
  String.mk (s.data.take (s.data.length - n))

/-- Model of `QString::length`. -/
def strLen (s : String) : Nat := s.data.length

/-- Model of `QString::isEmpty`. -/
def strIsEmpty (s : String) : Bool := s.data.isEmpty

/-- Path normalization applied by `addEntry` / `entry()`: strip one trailing
separator unless the path is the root (`length > 1 && endsWith('/')`). -/
def normalizePath (p : String) : String :=
  if strLen p > 1 ∧ strEndsWith p "/" then strDropRight p 1 else p

/-! The entry table: `m_mapEntries : QMap<QString, Entry>`, modelled as an
association list keyed by normalized path. Only lookup, insert (overwrite),
in-place update and remove are used by the source. -/

/-- Model of `m_mapEntries.find(path)`. -/
def mapFind : List (String × Entry) → String → Option Entry
  | [], _ => none
  | kv :: rest, p => if kv.1 = p then some kv.2 else mapFind rest p

/-- Write back an entry under an existing key (C++ mutates the mapped value
in place through `Entry *e`). -/
def mapSet (table : List (String × Entry)) (p : String) (e : Entry) :
    List (String × Entry) :=
  table.map (fun kv => if kv.1 = p then (p, e) else kv)

/-- Model of `m_mapEntries.insert(path, Entry())`: overwrite if present, else append. -/
def mapInsert (table : List (String × Entry)) (p : String) (e : Entry) :
    List (String × Entry) :=
  if (mapFind table p).isSome then mapSet table p e
  else table ++ [(p, e)]

/-- Model of `m_mapEntries.remove(path)`. -/
def mapRemove (table : List (String × Entry)) (p : String) :
    List (String × Entry) :=
  table.filter (fun kv => kv.1 ≠ p)

/-- Model of `KDirWatchPrivate::entry(_path)` (kdirwatch.cpp:642): empty paths have no
entry; otherwise look up the normalized path. -/
def entryLookup (table : List (String × Entry)) (p : String) : Option Entry :=
  if strIsEmpty p then none else mapFind table (normalizePath p)

/-- Backend side effects that the engine performs but the model records as
trace tokens: detaching / attaching a backend watch, removing the entry from
its parent's sub-entries, and the recursive directory registration loop of
`addEntry`. -/
inductive WatchAction where
  | removeWatchA
  | addWatchA
  | removeFromParentA
  | dirScanA
deriving DecidableEq, Repr

/-- Result of `scanEntry`: the returned event bits, the updated entry, whether
the `QT_STAT` classification was reached (as opposed to an early `NoChange`
return from the mode gates), and the recorded backend actions. -/
structure ScanResult where
  ev : Nat
  entry : Entry
  didStat : Bool
  actions : List WatchAction
deriving DecidableEq, Repr

/-- The stat classification of `scanEntry` (kdirwatch.cpp:1252-1318), after
the mode gates: compare the fresh stat result against the stored identity. -/
def scanEntryStat (st : Option StatBuf) (e : Entry) : ScanResult :=
  match st with
  | some sb =>
    if e.m_status = EntryStatus.NonExistent then
      -- "just created": record identity, go Normal, drop from parent's
      -- sub-entries (kdirwatch.cpp:1255-1267). `m_nlink` is not updated here.
      ⟨Created,
       { e with m_ctime := max sb.st_ctime sb.st_mtime,
                m_status := EntryStatus.Normal,
                m_ino := sb.st_ino },
       true, [WatchAction.removeFromParentA]⟩
    else
      if e.m_ctime ≠ invalid_ctime ∧
          (max sb.st_ctime sb.st_mtime ≠ e.m_ctime ∨ sb.st_ino ≠ e.m_ino ∨
            sb.st_nlink ≠ e.m_nlink) then
        let e1 := { e with m_ctime := max sb.st_ctime sb.st_mtime,
                           m_nlink := sb.st_nlink }
        if e.m_ino ≠ sb.st_ino then
          -- deleted and recreated: re-watch (kdirwatch.cpp:1293-1298)
          ⟨Deleted ||| Created, { e1 with m_ino := sb.st_ino }, true,
           [WatchAction.removeWatchA, WatchAction.addWatchA]⟩
        else
          ⟨Changed, e1, true, []⟩
      else
        ⟨NoChange, e, true, []⟩
  | none =>
    -- dir/file doesn't exist (kdirwatch.cpp:1307-1318)
    let e1 := { e with m_nlink := 0, m_ino := 0,
                       m_status := EntryStatus.NonExistent }
    if e.m_ctime = invalid_ctime then
      ⟨NoChange, e1, true, []⟩
    else
      ⟨Deleted, { e1 with m_ctime := invalid_ctime }, true, []⟩

/-- The `StatMode` counter gate of `scanEntry` (kdirwatch.cpp:1240-1250): in
stat mode, decrement `msecLeft` by the global `freq`, skip the scan while the
counter stays positive, and add the entry's own `freq` back when scanning;
then run the stat classification. -/
def scanEntryPoll (freq : Int) (st : Option StatBuf) (e1 : Entry) : ScanResult :=
  if e1.m_mode = EntryMode.StatMode then
    if e1.msecLeft - freq > 0 then
      ⟨NoChange, { e1 with msecLeft := e1.msecLeft - freq }, false, []⟩
    else
      scanEntryStat st { e1 with msecLeft := e1.msecLeft - freq + e1.freq }
  else
    scanEntryStat st e1

/-- Model of `KDirWatchPrivate::scanEntry` (kdirwatch.cpp:1225): mode gates (an
`UnknownMode` entry is ignored; a clean `INotify` entry skips the stat and a
dirty one clears its flag), then the poll gate and the stat classification.
`freq` is the engine-wide polling period; the stat result of the single
`QT_STAT` call is passed in as `st`. -/
def scanEntry (freq : Int) (st : Option StatBuf) (e : Entry) : ScanResult :=
  if e.m_mode = EntryMode.UnknownMode then
    ⟨NoChange, e, false, []⟩
  else if e.m_mode = EntryMode.INotifyMode ∧ e.dirty = false then
    ⟨NoChange, e, false, []⟩
  else
    scanEntryPoll freq st
      (if e.m_mode = EntryMode.INotifyMode then { e with dirty := false } else e)

/-- One asynchronous signal dispatch queued by `emitEvent` through
`QMetaObject::invokeMethod(..., Qt::QueuedConnection)`: the target instance,
which of `setDeleted` / `setCreated` / `setDirty` is invoked, and the path. -/
inductive Signal where
  | deleted
  | created
  | dirty
deriving DecidableEq, Repr

/-- A queued signal dispatch. -/
structure Dispatch where
  instanceId : Nat
  signal : Signal
  path : String
deriving DecidableEq, Repr

/-- Model of `QDir::isRelativePath` on Unix: relative iff not starting with `/`. -/
def qdirIsRelativePath (s : String) : Bool := !(strStartsWith s "/")

/-- Path computation at the top of `emitEvent` (kdirwatch.cpp:1327-1339),
Unix branch. -/
def emitPath (e : Entry) (fileName : String) : String :=
  if strIsEmpty fileName then e.path
  else if qdirIsRelativePath fileName = false then fileName
  else String.mk (e.path.data ++ "/".data ++ fileName.data)

/-- The three queued-connection signal invocations at the bottom of the
client loop of `emitEvent` (kdirwatch.cpp:1365-1391), in source order:
`setDeleted`, `setCreated`, `setDirty`. -/
def mkDispatches (i : Nat) (path : String) (event1 : Nat) : List Dispatch :=
  (if event1 &&& Deleted ≠ 0 then [Dispatch.mk i Signal.deleted path] else []) ++
  (if event1 &&& Created ≠ 0 then [Dispatch.mk i Signal.created path] else []) ++
  (if event1 &&& Changed ≠ 0 then [Dispatch.mk i Signal.dirty path] else [])

/-- One iteration of the client loop of `emitEvent` (kdirwatch.cpp:1345-1392).
`event` is the loop-carried local variable of the C++ function (it is mutated
by `event |= c.pending` and retained across iterations); the result is the
updated client record, the dispatches queued for this client, and the value of
`event` after the iteration. -/
def emitEventClient (path : String) (c : Client) (event : Nat) :
    Client × List Dispatch × Nat :=
  match c.instanceId with
  | none => (c, [], event)
  | some i =>
    if c.count = 0 then (c, [], event)
    else if c.watchingStopped then
      -- do not add the event to a list of pending events (kdirwatch.cpp:1350)
      (c, [], event)
    else
      let event1 := if event = NoChange ∨ event = Changed then event ||| c.pending else event
      let c1 := { c with pending := NoChange }
      if event1 = NoChange then (c1, [], event1)
      else (c1, mkDispatches i path event1, event1)

/-- The client loop of `emitEvent`, over the whole list. -/
def emitEventGo (path : String) : List Client → Nat → List Client × List Dispatch
  | [], _ => ([], [])
  | c :: rest, event =>
    let r := emitEventClient path c event
    let rr := emitEventGo path rest r.2.2
    (r.1 :: rr.1, r.2.1 ++ rr.2)

/-- Model of `KDirWatchPrivate::emitEvent` (kdirwatch.cpp:1325): queue the signals for
every interested client, returning the updated entry and the queued
dispatches. -/
def emitEvent (e : Entry) (event : Nat) (fileName : String) :
    Entry × List Dispatch :=
  let path := emitPath e fileName
  let r := emitEventGo path e.m_clients event
  ({ e with m_clients := r.1 }, r.2)

/-- The client loop of `stopEntryScan` (kdirwatch.cpp:1105-1114): stop the
matched clients, and count the registrations of clients that are still
watching. Returns the updated list and `stillWatching`. -/
def stopClientsGo (instanceId : Option Nat) : List Client → List Client × Int
  | [] => ([], 0)
  | c :: rest =>
    let r := stopClientsGo instanceId rest
    if instanceId = none ∨ instanceId = c.instanceId then
      ({ c with watchingStopped := true } :: r.1, r.2)
    else if c.watchingStopped = false then
      (c :: r.1, r.2 + c.count)
    else
      (c :: r.1, r.2)

/-- Model of `KDirWatchPrivate::stopEntryScan` (kdirwatch.cpp:1105): stop the matched
clients; when nobody keeps watching, invalidate the stored ctime so that
changes that happen while stopped are not reported. Always returns `true`. -/
def stopEntryScan (instanceId : Option Nat) (e : Entry) : Entry × Bool :=
  let r := stopClientsGo instanceId e.m_clients
  let e1 := { e with m_clients := r.1 }
  if r.2 = 0 then ({ e1 with m_ctime := invalid_ctime }, true)
  else (e1, true)

/-- The client loop of `restartEntryScan` (kdirwatch.cpp:1136-1143): restart
the matched stopped clients; count `wasWatching` and `newWatching`. Returns
(clients, wasWatching, newWatching). -/
def restartClientsGo (instanceId : Option Nat) : List Client → List Client × Int × Int
  | [] => ([], 0, 0)
  | c :: rest =>
    let r := restartClientsGo instanceId rest
    if c.watchingStopped = false then
      (c :: r.1, r.2.1 + c.count, r.2.2)
    else if instanceId = none ∨ instanceId = c.instanceId then
      ({ c with watchingStopped := false } :: r.1, r.2.1, r.2.2 + c.count)
    else
      (c :: r.1, r.2)

/-- Result of `restartEntryScan`: updated entry, queued dispatches, the
boolean return value, and recorded backend actions. -/
structure RestartResult where
  entry : Entry
  dispatches : List Dispatch
  returned : Bool
  actions : List WatchAction
deriving DecidableEq, Repr

/-- Model of `KDirWatchPrivate::restartEntryScan` (kdirwatch.cpp:1132): restart the
matched clients; if nobody was left watching, optionally (for
`notify == false`) resynchronize the stored state from a fresh stat before
re-classifying, then emit the resulting event. `st` is the stat snapshot of
the path during the call (both `QT_STAT` calls of the function observe it). -/
def restartEntryScan (freq : Int) (st : Option StatBuf) (instanceId : Option Nat)
    (e : Entry) (notify : Bool) : RestartResult :=
  let r := restartClientsGo instanceId e.m_clients
  let e1 := { e with m_clients := r.1 }
  if r.2.2 = 0 then ⟨e1, [], false, []⟩
  else
    let step : Entry × Nat × List WatchAction :=
      if r.2.1 = 0 then
        let refreshed : Entry × List WatchAction :=
          if notify = false then
            match st with
            | some sb =>
              ({ e1 with m_ctime := max sb.st_ctime sb.st_mtime,
                         m_status := EntryStatus.Normal,
                         m_nlink := sb.st_nlink,
                         m_ino := sb.st_ino },
               [WatchAction.removeFromParentA])
            | none =>
              ({ e1 with m_ctime := invalid_ctime,
                         m_status := EntryStatus.NonExistent,
                         m_nlink := 0 }, [])
          else (e1, [])
        let e2 := { refreshed.1 with msecLeft := 0 }
        let sr := scanEntry freq st e2
        (sr.entry, sr.ev, refreshed.2 ++ sr.actions)
      else (e1, NoChange, [])
    let em := emitEvent step.1 step.2.1 ""
    ⟨em.1, em.2, true, step.2.2⟩

/-! Backend selection: `KDirWatchPrivate::addWatch` (kdirwatch.cpp:925-991),
in the Unix build (`HAVE_SYS_INOTIFY_H` and `HAVE_QFILESYSTEMWATCHER` both
set). `useQFSWatch` (kdirwatch.cpp:721) and `useStat` (kdirwatch.cpp:750)
return `true` on every path through their bodies; `useINotify`
(kdirwatch.cpp:675) can fail, which we expose as an oracle bit. -/

/-- The inputs `addWatch` consults: the two configured preferred methods, the
filesystem-type probe for the entry's path, and whether `useINotify` succeeds
for this entry. -/
structure AddWatchEnv where
  preferredMethod : Method
  nfsPreferredMethod : Method
  isNfs : Bool
  inotifySucceeds : Bool
deriving DecidableEq, Repr

/-- The preferred method actually tried first (kdirwatch.cpp:936-941): the
NFS-preferred method when the two configured methods differ and the
filesystem-type probe reports a network mount. -/
def effectivePreferred (env : AddWatchEnv) : Method :=
  if env.nfsPreferredMethod ≠ env.preferredMethod then
    (if env.isNfs then env.nfsPreferredMethod else env.preferredMethod)
  else env.preferredMethod

/-- Outcome of invoking one backend's `use*` function on the entry. -/
def tryBackend (env : AddWatchEnv) : Method → Bool
  | Method.INotify => env.inotifySucceeds
  | Method.QFSWatch => true
  | Method.Stat => true

/-- Model of `KDirWatchPrivate::addWatch`, returning the sequence of backends whose
`use*` function was invoked, in invocation order (the last one is the one
that stuck). `inotifyFailed` is set only when the preferred method was
INotify and its attempt failed (kdirwatch.cpp:944-952); the fallback skips
`useQFSWatch` in that case because it is built on the same primitive
(kdirwatch.cpp:980-985). -/
def addWatch (env : AddWatchEnv) : List Method :=
  let pm := effectivePreferred env
  let inotifyFailed := pm = Method.INotify ∧ tryBackend env pm = false
  if tryBackend env pm = true then [pm]
  else
    -- failing that, try in order INotify, QFSWatch, Stat (kdirwatch.cpp:973-990)
    if pm ≠ Method.INotify ∧ tryBackend env Method.INotify = true then [pm, Method.INotify]
    else
      let tried1 : List Method := if pm ≠ Method.INotify then [Method.INotify] else []
      if pm ≠ Method.QFSWatch ∧ ¬inotifyFailed ∧ tryBackend env Method.QFSWatch = true then
        pm :: tried1 ++ [Method.QFSWatch]
      else
        let tried2 : List Method :=
          if pm ≠ Method.QFSWatch ∧ ¬inotifyFailed then [Method.QFSWatch] else []
        if pm ≠ Method.Stat then pm :: tried1 ++ tried2 ++ [Method.Stat]
        else pm :: tried1 ++ tried2

/-! Model of `KDirWatchPrivate::addEntry` (kdirwatch.cpp:779-923): path screening,
client / sub-entry registration on an existing entry, or creation of a new
entry. The recursive registration of directory contents and the final
`addWatch` call are recorded as actions. -/

/-- Model of `isNoisyFile` (kdirwatch.cpp:1537): well-known churn-generator names. -/
def isNoisyFile (filename : String) : Bool :=
  if strStartsWith filename "." then
    strStartsWith filename ".X.err" ||
    strStartsWith filename ".xsession-errors" ||
    strStartsWith filename ".fonts.cache"
  else false

/-- The silent rejection test of `addEntry` (kdirwatch.cpp:786-793), non-Windows
branch: empty paths, `/dev` itself, and the `/dev/` tree except `/dev/.*` and
`/dev/shm*`. -/
def isRejectedDevPath (path : String) : Bool :=
  strIsEmpty path || path == "/dev" ||
    (strStartsWith path "/dev/" && !strStartsWith path "/dev/." &&
      !strStartsWith path "/dev/shm")

/-- Result of `addEntry`: the updated entry table, whether the
"Cannot watch QRC-like path" warning was emitted, whether the registration
was dropped before touching the table, and recorded actions. -/
structure AddEntryResult where
  table : List (String × Entry)
  warnedQrc : Bool
  rejected : Bool
  actions : List WatchAction
deriving DecidableEq, Repr

/-- Model of `KDirWatchPrivate::addEntry`. `st` is the `QT_STAT` result for a new
path; `lstatIsLink` tells whether the `QT_LSTAT` symlink probe
(kdirwatch.cpp:830-838) reports a symlink. -/
def addEntry (st : Option StatBuf) (lstatIsLink : Bool)
    (table : List (String × Entry)) (instanceId : Option Nat) (_path : String)
    (subPath : Option String) (isDir : Bool) (watchModes : Nat) : AddEntryResult :=
  if strStartsWith _path ":/" then
    ⟨table, true, true, []⟩
  else if isRejectedDevPath _path then
    ⟨table, false, true, []⟩
  else
    let path := normalizePath _path
    match mapFind table path with
    | some e =>
      match subPath with
      | some sp =>
        ⟨mapSet table path { e with m_entries := e.m_entries ++ [sp] }, false, false, []⟩
      | none =>
        ⟨mapSet table path (e.addClient instanceId watchModes), false, false, []⟩
    | none =>
      -- a new path to watch (kdirwatch.cpp:817-923)
      let fields : Entry :=
        match st with
        | some sb =>
          let isDirStat := sb.st_isDir && !(sb.st_isDir && !isDir && lstatIsLink)
          { path := path, isDir := isDirStat, m_status := EntryStatus.Normal,
            m_mode := EntryMode.UnknownMode, m_ctime := sb.st_ctime,
            m_nlink := sb.st_nlink, m_ino := sb.st_ino, dirty := false,
            msecLeft := 0, freq := 0, m_clients := [], m_entries := [] }
        | none =>
          { path := path, isDir := isDir, m_status := EntryStatus.NonExistent,
            m_mode := EntryMode.UnknownMode, m_ctime := invalid_ctime,
            m_nlink := 0, m_ino := 0, dirty := false,
            msecLeft := 0, freq := 0, m_clients := [], m_entries := [] }
      let modes1 :=
        if fields.isDir = false ∧ st.isSome ∧ watchModes ≠ WatchDirOnly then WatchDirOnly
        else watchModes
      let e1 :=
        match subPath with
        | some sp => { fields with m_entries := [sp] }
        | none => fields.addClient instanceId modes1
      let table1 := mapInsert table path e1
      if isNoisyFile path then ⟨table1, false, false, []⟩
      else
        let acts :=
          (if st.isSome ∧ e1.isDir = true ∧ modes1 ≠ WatchDirOnly then
            [WatchAction.dirScanA] else []) ++ [WatchAction.addWatchA]
        ⟨table1, false, false, acts⟩

/-! Model of `KDirWatchPrivate::removeEntry` (kdirwatch.cpp:1014-1068) over the engine
state. Recursion (a `NonExistent` entry strips itself from its parent's
sub-entries) is bounded by explicit fuel; `parentDir` abstracts
`QFileInfo::absolutePath`. -/

/-- The engine-level state `removeEntry` touches. -/
structure DWState where
  m_mapEntries : List (String × Entry)
  delayRemove : Bool
  removeList : List String
  statEntries : Int
deriving DecidableEq, Repr

/-- Model of `KDirWatchPrivate::removeEntry`: look up the entry, drop the sub-entry or
decrement the client, and tear the entry down when no client and no sub-entry
remains (deferred onto `removeList` while `delayRemove` is set). `removeWatch`
is a backend-only effect and does not touch this state. -/
def removeEntryGo (parentDir : String → String) :
    Nat → DWState → Option Nat → String → Option String → DWState
  | 0, st, _, _, _ => st
  | Nat.succ fuel, st, instanceId, path, subPath =>
    match entryLookup st.m_mapEntries path with
    | none => st
    | some e =>
      -- removeList.remove(e) (kdirwatch.cpp:1026)
      let st1 := { st with removeList := st.removeList.filter (fun p => p ≠ e.path) }
      let e1 :=
        match subPath with
        | some sp => { e with m_entries := e.m_entries.filter (fun p => p ≠ sp) }
        | none => e.removeClient instanceId
      if e1.m_clients.isEmpty = false ∨ e1.m_entries.isEmpty = false then
        { st1 with m_mapEntries := mapSet st1.m_mapEntries e1.path e1 }
      else if st1.delayRemove then
        { st1 with m_mapEntries := mapSet st1.m_mapEntries e1.path e1,
                   removeList := st1.removeList ++ [e1.path] }
      else
        let st2 := { st1 with m_mapEntries := mapSet st1.m_mapEntries e1.path e1 }
        let st3 :=
          if e1.m_status = EntryStatus.Normal then st2
          else
            -- a NonExistent entry is just removed from its parent
            removeEntryGo parentDir fuel st2 none (parentDir e1.path) (some e1.path)
        let st4 :=
          if e1.m_mode = EntryMode.StatMode then
            { st3 with statEntries := st3.statEntries - 1 }
          else st3
        { st4 with m_mapEntries := mapRemove st4.m_mapEntries e1.path }

/-- Model of `k` registrations of `_path` by the same instance
(`addDir`/`addFile` → `addEntry`), keeping only the table. -/
def iterAdd (st : Option StatBuf) (lstatIsLink : Bool) (instanceId : Option Nat)
    (_path : String) (isDir : Bool) (watchModes : Nat) :
    Nat → List (String × Entry) → List (String × Entry)
  | 0, t => t
  | Nat.succ k, t =>
    iterAdd st lstatIsLink instanceId _path isDir watchModes k
      (addEntry st lstatIsLink t instanceId _path none isDir watchModes).table

/-- Model of `k` removals of `_path` by the same instance
(`removeDir`/`removeFile` → `removeEntry`). -/
def iterRemove (parentDir : String → String) (fuel : Nat) (instanceId : Option Nat)
    (_path : String) : Nat → DWState → DWState
  | 0, s => s
  | Nat.succ k, s =>
    iterRemove parentDir fuel instanceId _path k
      (removeEntryGo parentDir fuel s instanceId _path none)

/-! Concrete fixtures used by witnesses and counterexamples. -/

/-- A concrete Stat-mode entry without clients. -/
def sampleEntry : Entry :=
  { path := "/tmp/f", isDir := false, m_status := EntryStatus.Normal,
    m_mode := EntryMode.StatMode, m_ctime := 10, m_nlink := 1, m_ino := 7,
    dirty := false, msecLeft := 0, freq := 500, m_clients := [], m_entries := [] }

/-- A concrete stat result matching `sampleEntry`'s stored identity. -/
def sampleStat : StatBuf :=
  { st_ctime := 10, st_mtime := 5, st_ino := 7, st_nlink := 1 }

/-- A concrete fully-stopped entry (one client, stopped, registered twice),
with the invalidated ctime `stopEntryScan` leaves behind. -/
def stoppedEntry : Entry :=
  { sampleEntry with m_ctime := invalid_ctime,
                     m_clients := [⟨some 1, 2, 0, true, NoChange⟩] }

/-- The scan gates reached the stat classification: a `Stat`-mode entry whose
counter is exhausted, or a dirty `INotify`-mode entry. -/
def scanReachesStat (freq : Int) (e : Entry) : Prop :=
  (e.m_mode = EntryMode.StatMode ∧ e.msecLeft ≤ freq)
  ∨ (e.m_mode = EntryMode.INotifyMode ∧ e.dirty = true)

instance (freq : Int) (e : Entry) : Decidable (scanReachesStat freq e) := by
  unfold scanReachesStat
  exact inferInstance

/-! ## Theorems -/

/-- C10: for every entry and every watch-mode set, `addClient` with a null
watcher instance leaves the entry — in particular its client list — completely
unchanged: no `Client` record is added and no existing record is modified. -/
theorem claim_C10 (e : Entry) (watchModes : Nat) :
    e.addClient none watchModes = e := rfl

/-- C4: `addWatch` attempts the preferred backend first (the NFS-preferred
backend when the filesystem-type probe reports a network mount); on failure it
falls back in the fixed order INotify, QFSWatch (the generic watcher), Stat,
skipping the backend already tried; and it never attempts the generic watcher
once the native inotify attempt for this entry has failed. -/
theorem claim_C4 (env : AddWatchEnv) :
    (addWatch env).head? =
        some (if env.isNfs then env.nfsPreferredMethod else env.preferredMethod)
    ∧ List.Sublist (addWatch env).tail [Method.INotify, Method.QFSWatch, Method.Stat]
    ∧ (∀ m ∈ (addWatch env).tail, m ≠ effectivePreferred env)
    ∧ (env.inotifySucceeds = false → Method.INotify ∈ addWatch env →
        Method.QFSWatch ∉ addWatch env) := by
  obtain ⟨p, n, f, s⟩ := env
  cases p <;> cases n <;> cases f <;> cases s <;> decide

/-- Witness for C4 at a concrete input: with INotify preferred and failing,
the generic watcher is indeed never attempted. -/
theorem claim_C4_witness :
    Method.QFSWatch ∉ addWatch ⟨Method.INotify, Method.Stat, false, false⟩ :=
  (claim_C4 ⟨Method.INotify, Method.Stat, false, false⟩).2.2.2 rfl (by decide)

/-- C8 (amended): a registration whose path starts with the pseudo-resource
prefix ":/" is dropped with a warning before any entry is created; a
registration whose path lies in the forbidden device tree (`/dev`, or under
`/dev/` except `/dev/.*` and `/dev/shm*`) is dropped silently — without any
warning — before any entry is created. In both cases the entry table is left
unchanged, so no event can ever be delivered for the path. -/
theorem claim_C8 (st : Option StatBuf) (lsl : Bool) (table : List (String × Entry))
    (instanceId : Option Nat) (path : String) (subPath : Option String)
    (isDir : Bool) (modes : Nat) :
    (strStartsWith path ":/" = true →
      addEntry st lsl table instanceId path subPath isDir modes =
        ⟨table, true, true, []⟩)
    ∧ (strStartsWith path ":/" = false → isRejectedDevPath path = true →
      addEntry st lsl table instanceId path subPath isDir modes =
        ⟨table, false, true, []⟩) := by
  constructor
  · intro h
    simp [addEntry, h]
  · intro h1 h2
    simp [addEntry, h1, h2]

/-- Witness for C8 at concrete inputs: ":/x" is rejected with the warning,
"/dev" is rejected without touching the table. -/
theorem claim_C8_witness :
    addEntry none false [] (some 1) ":/x" none false 0 = ⟨[], true, true, []⟩
    ∧ addEntry none false [] (some 1) "/dev" none false 0 = ⟨[], false, true, []⟩ :=
  ⟨(claim_C8 none false [] (some 1) ":/x" none false 0).1 (by decide),
   (claim_C8 none false [] (some 1) "/dev" none false 0).2 (by decide) (by decide)⟩

/-- Counterexample to C8 as stated: "/dev/null" satisfies the claim's premise
(it lies in the forbidden device tree), the registration is indeed dropped
and creates no entry, but — contrary to the claim — no warning is emitted for
it (only the ":/" branch of `addEntry` warns; the device branch returns
silently). -/
theorem claim_C8_counterexample :
    strStartsWith "/dev/null" "/dev/" = true
    ∧ strStartsWith "/dev/null" "/dev/." = false
    ∧ strStartsWith "/dev/null" "/dev/shm" = false
    ∧ (addEntry none false [] (some 1) "/dev/null" none false 0).rejected = true
    ∧ (addEntry none false [] (some 1) "/dev/null" none false 0).table = []
    ∧ (addEntry none false [] (some 1) "/dev/null" none false 0).warnedQrc = false := by
  decide

lemma scanEntry_eq_statScan (freq : Int) (st : Option StatBuf) (e : Entry)
    (h : scanReachesStat freq e) :
    ∃ e1 : Entry, scanEntry freq st e = scanEntryStat st e1
      ∧ e1.m_status = e.m_status ∧ e1.m_ctime = e.m_ctime ∧ e1.m_ino = e.m_ino
      ∧ e1.m_nlink = e.m_nlink ∧ e1.m_clients = e.m_clients
      ∧ e1.m_entries = e.m_entries := by
  rcases h with ⟨hm, hms⟩ | ⟨hm, hd⟩
  · refine ⟨{ e with msecLeft := e.msecLeft - freq + e.freq }, ?_, rfl, rfl, rfl, rfl, rfl, rfl⟩
    have hgt : ¬ (e.msecLeft - freq > 0) := by omega
    simp [scanEntry, scanEntryPoll, hm, hgt]
  · refine ⟨{ e with dirty := false }, ?_, rfl, rfl, rfl, rfl, rfl, rfl⟩
    simp [scanEntry, scanEntryPoll, hm, hd]

lemma statScan_normal_diff (sb : StatBuf) (e : Entry)
    (hstatus : e.m_status = EntryStatus.Normal)
    (hvalid : e.m_ctime ≠ invalid_ctime)
    (hdiff : max sb.st_ctime sb.st_mtime ≠ e.m_ctime ∨ sb.st_ino ≠ e.m_ino ∨
      sb.st_nlink ≠ e.m_nlink) :
    (sb.st_ino ≠ e.m_ino →
      (scanEntryStat (some sb) e).ev = (Deleted ||| Created)
      ∧ (scanEntryStat (some sb) e).actions =
          [WatchAction.removeWatchA, WatchAction.addWatchA]
      ∧ (scanEntryStat (some sb) e).entry.m_ino = sb.st_ino
      ∧ (scanEntryStat (some sb) e).entry.m_ctime = max sb.st_ctime sb.st_mtime
      ∧ (scanEntryStat (some sb) e).entry.m_nlink = sb.st_nlink)
    ∧ (sb.st_ino = e.m_ino → (scanEntryStat (some sb) e).ev = Changed) := by
  rw [scanEntryStat]
  rw [if_neg (by simp [hstatus]), if_pos ⟨hvalid, hdiff⟩]
  constructor
  · intro hino
    rw [if_pos (fun h => hino h.symm)]
    exact ⟨rfl, rfl, rfl, rfl, rfl⟩
  · intro hino
    rw [if_neg (by simp [hino])]

lemma statScan_missing (e : Entry) :
    (e.m_ctime ≠ invalid_ctime →
      (scanEntryStat none e).ev = Deleted
      ∧ (scanEntryStat none e).entry.m_status = EntryStatus.NonExistent
      ∧ (scanEntryStat none e).entry.m_ino = 0
      ∧ (scanEntryStat none e).entry.m_nlink = 0
      ∧ (scanEntryStat none e).entry.m_ctime = invalid_ctime)
    ∧ (e.m_ctime = invalid_ctime →
      (scanEntryStat none e).ev = NoChange
      ∧ (scanEntryStat none e).entry.m_status = EntryStatus.NonExistent
      ∧ (scanEntryStat none e).entry.m_ino = 0
      ∧ (scanEntryStat none e).entry.m_nlink = 0
      ∧ (scanEntryStat none e).entry.m_ctime = invalid_ctime) := by
  rw [scanEntryStat]
  constructor
  · intro h
    rw [if_neg h]
    exact ⟨rfl, rfl, rfl, rfl, rfl⟩
  · intro h
    rw [if_pos h]
    exact ⟨rfl, rfl, rfl, rfl, h⟩

/-- C2 (amended): for every entry previously in status `Normal` whose path
still exists at a stat scan, whose stored ctime is not the invalid sentinel,
and whose observed `(max(ctime, mtime), inode, nlink)` tuple differs from the
stored one: if the inode differs, `scanEntry` detaches and reattaches the
backend watch, updates the stored identity, and returns `Deleted | Created`;
otherwise it returns `Changed`. -/
theorem claim_C2 (freq : Int) (sb : StatBuf) (e : Entry)
    (hgate : scanReachesStat freq e)
    (hstatus : e.m_status = EntryStatus.Normal)
    (hvalid : e.m_ctime ≠ invalid_ctime)
    (hdiff : max sb.st_ctime sb.st_mtime ≠ e.m_ctime ∨ sb.st_ino ≠ e.m_ino ∨
      sb.st_nlink ≠ e.m_nlink) :
    (sb.st_ino ≠ e.m_ino →
      (scanEntry freq (some sb) e).ev = (Deleted ||| Created)
      ∧ (scanEntry freq (some sb) e).actions =
          [WatchAction.removeWatchA, WatchAction.addWatchA]
      ∧ (scanEntry freq (some sb) e).entry.m_ino = sb.st_ino
      ∧ (scanEntry freq (some sb) e).entry.m_ctime = max sb.st_ctime sb.st_mtime
      ∧ (scanEntry freq (some sb) e).entry.m_nlink = sb.st_nlink)
    ∧ (sb.st_ino = e.m_ino → (scanEntry freq (some sb) e).ev = Changed) := by
  obtain ⟨e1, heq, hs, hc, hi, hn, -, -⟩ := scanEntry_eq_statScan freq (some sb) e hgate
  rw [heq]
  have := statScan_normal_diff sb e1 (hs.trans hstatus) (hc ▸ hvalid)
    (by rw [hc, hi, hn]; exact hdiff)
  rw [← hi]
  exact this

/-- Witness for C2 at a concrete input: the sample entry with a changed inode
is re-watched and reports `Deleted | Created`. -/
theorem claim_C2_witness :
    scanReachesStat 500 sampleEntry
    ∧ sampleEntry.m_status = EntryStatus.Normal
    ∧ sampleEntry.m_ctime ≠ invalid_ctime
    ∧ ((9 : Nat) ≠ sampleEntry.m_ino →
        (scanEntry 500 (some ⟨10, 5, 9, 1, false⟩) sampleEntry).ev = (Deleted ||| Created)
        ∧ (scanEntry 500 (some ⟨10, 5, 9, 1, false⟩) sampleEntry).actions =
            [WatchAction.removeWatchA, WatchAction.addWatchA]
        ∧ (scanEntry 500 (some ⟨10, 5, 9, 1, false⟩) sampleEntry).entry.m_ino = 9
        ∧ (scanEntry 500 (some ⟨10, 5, 9, 1, false⟩) sampleEntry).entry.m_ctime = max 10 5
        ∧ (scanEntry 500 (some ⟨10, 5, 9, 1, false⟩) sampleEntry).entry.m_nlink = 1) :=
  ⟨by decide, by decide, by decide,
   (claim_C2 500 ⟨10, 5, 9, 1, false⟩ sampleEntry (by decide) (by decide) (by decide)
      (by decide)).1⟩

/-- Counterexample to C2 as stated: an entry in status `Normal` whose stored
ctime is the invalid sentinel (the state `stopEntryScan` leaves behind when
the last watching client stops). The path exists, the observed tuple differs
from the stored one (in the timestamp slot) and the inode is identical, so the
claim demands `Changed`; `scanEntry` returns `NoChange` because of the
`m_ctime != invalid_ctime` guard the claim omits. -/
theorem claim_C2_counterexample :
    stoppedEntry.m_status = EntryStatus.Normal
    ∧ max (100 : Int) 50 ≠ stoppedEntry.m_ctime
    ∧ (7 : Nat) = stoppedEntry.m_ino
    ∧ (scanEntry 500 (some ⟨100, 50, 7, 1, false⟩) stoppedEntry).ev = NoChange
    ∧ NoChange ≠ Changed := by
  decide

/-- C6 (amended): for every entry previously in status `Normal` whose path no
longer exists at a stat scan and whose stored ctime is not the invalid
sentinel, `scanEntry` transitions the entry to `NonExistent`, clears its
identity (inode and link count zeroed, ctime set to the invalid sentinel) and
returns `Deleted`. -/
theorem claim_C6 (freq : Int) (e : Entry)
    (hgate : scanReachesStat freq e)
    (hstatus : e.m_status = EntryStatus.Normal)
    (hvalid : e.m_ctime ≠ invalid_ctime) :
    (scanEntry freq none e).ev = Deleted
    ∧ (scanEntry freq none e).entry.m_status = EntryStatus.NonExistent
    ∧ (scanEntry freq none e).entry.m_ino = 0
    ∧ (scanEntry freq none e).entry.m_nlink = 0
    ∧ (scanEntry freq none e).entry.m_ctime = invalid_ctime := by
  obtain ⟨e1, heq, -, hc, -, -, -, -⟩ := scanEntry_eq_statScan freq none e hgate
  rw [heq]
  exact (statScan_missing e1).1 (hc ▸ hvalid)

/-- Witness for C6 at a concrete input: deleting the sample entry's path
yields `Deleted` and a cleared identity. -/
theorem claim_C6_witness :
    scanReachesStat 500 sampleEntry
    ∧ sampleEntry.m_status = EntryStatus.Normal
    ∧ sampleEntry.m_ctime ≠ invalid_ctime
    ∧ ((scanEntry 500 none sampleEntry).ev = Deleted
      ∧ (scanEntry 500 none sampleEntry).entry.m_status = EntryStatus.NonExistent
      ∧ (scanEntry 500 none sampleEntry).entry.m_ino = 0
      ∧ (scanEntry 500 none sampleEntry).entry.m_nlink = 0
      ∧ (scanEntry 500 none sampleEntry).entry.m_ctime = invalid_ctime) :=
  ⟨by decide, by decide, by decide,
   claim_C6 500 sampleEntry (by decide) (by decide) (by decide)⟩

/-- Counterexample to C6 as stated: an entry in status `Normal` whose stored
ctime is the invalid sentinel. Its path is missing at the scan, so the claim
demands `Deleted`; `scanEntry` returns `NoChange`. -/
theorem claim_C6_counterexample :
    stoppedEntry.m_status = EntryStatus.Normal
    ∧ (scanEntry 500 none stoppedEntry).ev = NoChange
    ∧ NoChange ≠ Deleted := by
  decide

/-- C9: for every entry whose stored ctime equals the invalid sentinel (as
`stopEntryScan` sets it when the last still-watching client stops — first
conjunct), a stat scan that finds the path missing still transitions the
entry to `NonExistent` and zeroes its identity, but returns `NoChange`
rather than `Deleted`: no deletion event is reported in this state. -/
theorem claim_C9 (freq : Int) (e : Entry)
    (hgate : scanReachesStat freq e)
    (hvalid : e.m_ctime = invalid_ctime) :
    (∀ (instanceId : Option Nat) (e' : Entry),
      (stopClientsGo instanceId e'.m_clients).2 = 0 →
      (stopEntryScan instanceId e').1.m_ctime = invalid_ctime)
    ∧ (scanEntry freq none e).ev = NoChange
    ∧ (scanEntry freq none e).entry.m_status = EntryStatus.NonExistent
    ∧ (scanEntry freq none e).entry.m_ino = 0
    ∧ (scanEntry freq none e).entry.m_nlink = 0
    ∧ (scanEntry freq none e).entry.m_ctime = invalid_ctime := by
  refine ⟨?_, ?_⟩
  · intro instanceId e' h
    rw [stopEntryScan, if_pos h]
  · obtain ⟨e1, heq, -, hc, -, -, -, -⟩ := scanEntry_eq_statScan freq none e hgate
    rw [heq]
    exact (statScan_missing e1).2 (hc.trans hvalid)

/-- Witness for C9 at a concrete input: the stopped sample entry's deletion
is observed silently. -/
theorem claim_C9_witness :
    scanReachesStat 500 stoppedEntry
    ∧ stoppedEntry.m_ctime = invalid_ctime
    ∧ ((stopClientsGo (some 1) stoppedEntry.m_clients).2 = 0 →
        (stopEntryScan (some 1) stoppedEntry).1.m_ctime = invalid_ctime)
    ∧ (scanEntry 500 none stoppedEntry).ev = NoChange
    ∧ (scanEntry 500 none stoppedEntry).entry.m_status = EntryStatus.NonExistent :=
  ⟨by decide, by decide,
   (claim_C9 500 stoppedEntry (by decide) (by decide)).1 (some 1) stoppedEntry,
   (claim_C9 500 stoppedEntry (by decide) (by decide)).2.1,
   (claim_C9 500 stoppedEntry (by decide) (by decide)).2.2.1⟩

lemma statScan_didStat (st : Option StatBuf) (e : Entry) :
    (scanEntryStat st e).didStat = true := by
  cases st with
  | some sb =>
    rw [scanEntryStat]
    split
    · rfl
    · split
      · split <;> rfl
      · rfl
  | none =>
    rw [scanEntryStat]
    split <;> rfl

lemma statScan_msecLeft (st : Option StatBuf) (e : Entry) :
    (scanEntryStat st e).entry.msecLeft = e.msecLeft := by
  cases st with
  | some sb =>
    rw [scanEntryStat]
    split
    · rfl
    · split
      · split <;> rfl
      · rfl
  | none =>
    rw [scanEntryStat]
    split <;> rfl

/-- C7 (amended): on a stat-timer tick, a `Stat`-mode entry's remaining
counter is decremented by the global frequency `freq`; the entry is
stat-scanned exactly when the decremented counter drops to zero **or below**,
and on that scan the counter is increased by the entry's own poll frequency
(which refills it to `poll_freq` only when it hit exactly zero). -/
theorem claim_C7 (freq : Int) (st : Option StatBuf) (e : Entry)
    (hmode : e.m_mode = EntryMode.StatMode) :
    ((scanEntry freq st e).didStat = true ↔ e.msecLeft - freq ≤ 0)
    ∧ (scanEntry freq st e).entry.msecLeft =
        (if e.msecLeft - freq ≤ 0 then e.msecLeft - freq + e.freq
         else e.msecLeft - freq) := by
  by_cases h : e.msecLeft - freq ≤ 0
  · have hgt : ¬ (e.msecLeft - freq > 0) := by omega
    simp [scanEntry, scanEntryPoll, hmode, hgt, h, statScan_didStat, statScan_msecLeft]
  · have hgt : e.msecLeft - freq > 0 := by omega
    simp [scanEntry, scanEntryPoll, hmode, hgt, h]

/-- Witness for C7 at a concrete input. -/
theorem claim_C7_witness :
    sampleEntry.m_mode = EntryMode.StatMode
    ∧ (((scanEntry 300 (some sampleStat) sampleEntry).didStat = true ↔
          sampleEntry.msecLeft - 300 ≤ 0)
      ∧ (scanEntry 300 (some sampleStat) sampleEntry).entry.msecLeft =
          (if sampleEntry.msecLeft - 300 ≤ 0 then
            sampleEntry.msecLeft - 300 + sampleEntry.freq
           else sampleEntry.msecLeft - 300)) :=
  ⟨rfl, claim_C7 300 (some sampleStat) sampleEntry rfl⟩

/-- Counterexample to C7 as stated: with the global frequency at 300 (e.g.
`POLL_INTERVAL=300` alongside `NFS_POLL_INTERVAL=500`) an entry with
`poll_freq = 500` and 200 ms left is scanned although its counter never
"reaches zero" (it drops to −100), and the counter is then 400, not the
claimed refill to `poll_freq = 500`. -/
theorem claim_C7_counterexample :
    (scanEntry 300 (some sampleStat) { sampleEntry with msecLeft := 200 }).didStat = true
    ∧ (200 : Int) - 300 ≠ 0
    ∧ (scanEntry 300 (some sampleStat)
        { sampleEntry with msecLeft := 200 }).entry.msecLeft ≠ sampleEntry.freq := by
  decide

lemma mkDispatches_instanceId (i : Nat) (path : String) (ev : Nat) :
    ∀ d ∈ mkDispatches i path ev, d.instanceId = i := by
  intro d hd
  rw [mkDispatches] at hd
  simp only [List.mem_append] at hd
  rcases hd with (hd | hd) | hd <;> split at hd <;> simp_all

lemma mkDispatches_created_eq (i : Nat) (path : String) :
    mkDispatches i path Created = [Dispatch.mk i Signal.created path] := by
  rw [mkDispatches]
  rw [if_neg (by decide), if_pos (by decide), if_neg (by decide)]
  rfl

lemma emitEventClient_skip (path : String) (c : Client) (ev : Nat)
    (h : c.instanceId = none ∨ c.count = 0 ∨ c.watchingStopped = true) :
    emitEventClient path c ev = (c, [], ev) := by
  obtain ⟨ci, cc, cm, cw, cp⟩ := c
  rcases h with h | h | h
  · simp only at h
    subst h
    rfl
  · simp only at h
    subst h
    cases ci with
    | none => rfl
    | some i =>
      rw [emitEventClient]
      dsimp only
      rw [if_pos rfl]
  · simp only at h
    subst h
    cases ci with
    | none => rfl
    | some i =>
      rw [emitEventClient]
      dsimp only
      by_cases hc : cc = 0
      · rw [if_pos hc]
      · rw [if_neg hc, if_pos rfl]

lemma emitEventClient_stopped (path : String) (c : Client) (ev : Nat)
    (h : c.watchingStopped = true) :
    emitEventClient path c ev = (c, [], ev) :=
  emitEventClient_skip path c ev (Or.inr (Or.inr h))

lemma emitEventClient_live (path : String) (c : Client) (ev : Nat) (i : Nat)
    (hi : c.instanceId = some i) (hc : ¬ c.count = 0)
    (hst : c.watchingStopped = false) :
    emitEventClient path c ev =
      (if (if ev = NoChange ∨ ev = Changed then ev ||| c.pending else ev) = NoChange
       then ({ c with pending := NoChange }, [],
             (if ev = NoChange ∨ ev = Changed then ev ||| c.pending else ev))
       else ({ c with pending := NoChange },
             mkDispatches i path
               (if ev = NoChange ∨ ev = Changed then ev ||| c.pending else ev),
             (if ev = NoChange ∨ ev = Changed then ev ||| c.pending else ev))) := by
  obtain ⟨ci, cc, cm, cw, cp⟩ := c
  simp only at hi hc hst
  subst hi
  subst hst
  rw [emitEventClient]
  dsimp only
  rw [if_neg hc, if_neg (by simp)]

lemma emitEventGo_stopped_preserved (path : String) :
    ∀ (cs : List Client) (ev : Nat),
      List.Forall₂ (fun c c' => c.watchingStopped = true → c' = c) cs
        (emitEventGo path cs ev).1
  | [], _ => by simp [emitEventGo]
  | c :: rest, ev => by
    rw [emitEventGo]
    refine List.Forall₂.cons ?_ (emitEventGo_stopped_preserved path rest _)
    intro hst
    rw [emitEventClient_stopped path c ev hst]

lemma emitEventClient_dispatch_origin (path : String) (c : Client) (ev : Nat) :
    ∀ d ∈ (emitEventClient path c ev).2.1,
      c.instanceId = some d.instanceId ∧ c.watchingStopped = false ∧ c.count ≠ 0 := by
  intro d hd
  cases hi : c.instanceId with
  | none => rw [emitEventClient_skip path c ev (Or.inl hi)] at hd; simp at hd
  | some i =>
    by_cases hc : c.count = 0
    · rw [emitEventClient_skip path c ev (Or.inr (Or.inl hc))] at hd
      simp at hd
    · by_cases hst : c.watchingStopped
      · rw [emitEventClient_skip path c ev (Or.inr (Or.inr hst))] at hd
        simp at hd
      · have hst' : c.watchingStopped = false := by simpa using hst
        rw [emitEventClient_live path c ev i hi hc hst'] at hd
        refine ⟨?_, hst', hc⟩
        split at hd <;> split at hd <;> dsimp only at hd
        · exact absurd hd (List.not_mem_nil d)
        · exact congrArg some (mkDispatches_instanceId i path _ d hd).symm
        · exact absurd hd (List.not_mem_nil d)
        · exact congrArg some (mkDispatches_instanceId i path _ d hd).symm

lemma emitEventGo_dispatch_origin (path : String) :
    ∀ (cs : List Client) (ev : Nat), ∀ d ∈ (emitEventGo path cs ev).2,
      ∃ c ∈ cs, c.instanceId = some d.instanceId ∧ c.watchingStopped = false
        ∧ c.count ≠ 0
  | [], _ => by simp [emitEventGo]
  | c :: rest, ev => by
    intro d hd
    rw [emitEventGo] at hd
    rcases List.mem_append.mp hd with hd | hd
    · exact ⟨c, List.mem_cons_self c rest, emitEventClient_dispatch_origin path c ev d hd⟩
    · obtain ⟨c', hc', hp⟩ := emitEventGo_dispatch_origin path rest _ d hd
      exact ⟨c', List.mem_cons_of_mem c hc', hp⟩

lemma emitEventClient_tame (path : String) (c : Client) (ev : Nat)
    (hpend : c.pending = NoChange) (hev : ev = NoChange ∨ ev = Created) :
    (∀ d ∈ (emitEventClient path c ev).2.1, d.signal = Signal.created)
    ∧ ((emitEventClient path c ev).2.2 = NoChange ∨
        (emitEventClient path c ev).2.2 = Created) := by
  cases hi : c.instanceId with
  | none =>
    rw [emitEventClient_skip path c ev (Or.inl hi)]
    exact ⟨by simp, hev⟩
  | some i =>
    by_cases hc : c.count = 0
    · rw [emitEventClient_skip path c ev (Or.inr (Or.inl hc))]
      exact ⟨by simp, hev⟩
    · by_cases hst : c.watchingStopped
      · rw [emitEventClient_skip path c ev (Or.inr (Or.inr hst))]
        exact ⟨by simp, hev⟩
      · have hst' : c.watchingStopped = false := by simpa using hst
        rw [emitEventClient_live path c ev i hi hc hst']
        rcases hev with hev | hev
        · subst hev
          have hcond : (if NoChange = NoChange ∨ NoChange = Changed then
              NoChange ||| c.pending else NoChange) = NoChange := by
            rw [if_pos (Or.inl rfl), hpend]
            decide
          rw [hcond, if_pos rfl]
          exact ⟨by simp, Or.inl rfl⟩
        · subst hev
          have hcond : (if Created = NoChange ∨ Created = Changed then
              Created ||| c.pending else Created) = Created := if_neg (by decide)
          rw [hcond, if_neg (by decide), mkDispatches_created_eq]
          refine ⟨?_, Or.inr rfl⟩
          intro d hd
          simp only [List.mem_singleton] at hd
          subst hd
          rfl

lemma emitEventGo_tame (path : String) :
    ∀ (cs : List Client) (ev : Nat), (∀ c ∈ cs, c.pending = NoChange) →
      (ev = NoChange ∨ ev = Created) →
      ∀ d ∈ (emitEventGo path cs ev).2, d.signal = Signal.created
  | [], _ => by simp [emitEventGo]
  | c :: rest, ev => by
    intro hpend hev d hd
    rw [emitEventGo] at hd
    have hhead := emitEventClient_tame path c ev (hpend c (List.mem_cons_self c rest)) hev
    rcases List.mem_append.mp hd with hd | hd
    · exact hhead.1 d hd
    · exact emitEventGo_tame path rest _
        (fun c' hc' => hpend c' (List.mem_cons_of_mem c hc')) hhead.2 d hd

lemma emitEventClient_nochange (path : String) (c : Client)
    (hpend : c.pending = NoChange) :
    (emitEventClient path c NoChange).2.1 = []
    ∧ (emitEventClient path c NoChange).2.2 = NoChange := by
  cases hi : c.instanceId with
  | none => rw [emitEventClient_skip path c NoChange (Or.inl hi)]; exact ⟨rfl, rfl⟩
  | some i =>
    by_cases hc : c.count = 0
    · rw [emitEventClient_skip path c NoChange (Or.inr (Or.inl hc))]
      exact ⟨rfl, rfl⟩
    · by_cases hst : c.watchingStopped
      · rw [emitEventClient_skip path c NoChange (Or.inr (Or.inr hst))]
        exact ⟨rfl, rfl⟩
      · have hst' : c.watchingStopped = false := by simpa using hst
        rw [emitEventClient_live path c NoChange i hi hc hst']
        have hcond : (if NoChange = NoChange ∨ NoChange = Changed then
            NoChange ||| c.pending else NoChange) = NoChange := by
          rw [if_pos (Or.inl rfl), hpend]
          decide
        rw [hcond, if_pos rfl]
        exact ⟨rfl, rfl⟩

lemma emitEventGo_nochange (path : String) :
    ∀ (cs : List Client), (∀ c ∈ cs, c.pending = NoChange) →
      (emitEventGo path cs NoChange).2 = []
  | [] => by simp [emitEventGo]
  | c :: rest => by
    intro hpend
    rw [emitEventGo]
    have hc := emitEventClient_nochange path c (hpend c (List.mem_cons_self c rest))
    rw [hc.1, hc.2]
    exact emitEventGo_nochange path rest
      (fun c' hc' => hpend c' (List.mem_cons_of_mem c hc'))

lemma emitEvent_dispatches_nochange (e : Entry) (fn : String)
    (hpend : ∀ c ∈ e.m_clients, c.pending = NoChange) :
    (emitEvent e NoChange fn).2 = [] := by
  rw [emitEvent]
  exact emitEventGo_nochange _ _ hpend

lemma statScan_clients (st : Option StatBuf) (e : Entry) :
    (scanEntryStat st e).entry.m_clients = e.m_clients := by
  cases st with
  | some sb =>
    rw [scanEntryStat]
    split
    · rfl
    · split
      · split <;> rfl
      · rfl
  | none =>
    rw [scanEntryStat]
    split <;> rfl

lemma scanEntryPoll_clients (freq : Int) (st : Option StatBuf) (e1 : Entry) :
    (scanEntryPoll freq st e1).entry.m_clients = e1.m_clients := by
  rw [scanEntryPoll]
  split
  · split
    · rfl
    · rw [statScan_clients]
  · rw [statScan_clients]

lemma scanEntry_clients (freq : Int) (st : Option StatBuf) (e : Entry) :
    (scanEntry freq st e).entry.m_clients = e.m_clients := by
  rw [scanEntry]
  split
  · rfl
  · split
    · rfl
    · rw [scanEntryPoll_clients]
      split <;> rfl

lemma statScan_synced_eq (sb : StatBuf) (e : Entry)
    (h1 : e.m_status = EntryStatus.Normal)
    (h2 : e.m_ctime = max sb.st_ctime sb.st_mtime)
    (h3 : e.m_ino = sb.st_ino) (h4 : e.m_nlink = sb.st_nlink) :
    scanEntryStat (some sb) e = ⟨NoChange, e, true, []⟩ := by
  rw [scanEntryStat]
  rw [if_neg (by simp [h1]), if_neg (by rintro ⟨-, h | h | h⟩ <;> simp_all)]

lemma statScan_synced_fields (sb : StatBuf) (e1 : Entry)
    (h1 : e1.m_status = EntryStatus.Normal)
    (h2 : e1.m_ctime = max sb.st_ctime sb.st_mtime)
    (h3 : e1.m_ino = sb.st_ino) (h4 : e1.m_nlink = sb.st_nlink) :
    (scanEntryStat (some sb) e1).ev = NoChange
    ∧ (scanEntryStat (some sb) e1).entry.m_status = e1.m_status
    ∧ (scanEntryStat (some sb) e1).entry.m_ctime = e1.m_ctime
    ∧ (scanEntryStat (some sb) e1).entry.m_ino = e1.m_ino
    ∧ (scanEntryStat (some sb) e1).entry.m_nlink = e1.m_nlink := by
  rw [statScan_synced_eq sb e1 h1 h2 h3 h4]
  exact ⟨rfl, rfl, rfl, rfl, rfl⟩

lemma statScan_missing_fields (e1 : Entry) (hc : e1.m_ctime = invalid_ctime) :
    (scanEntryStat none e1).ev = NoChange
    ∧ (scanEntryStat none e1).entry.m_status = EntryStatus.NonExistent
    ∧ (scanEntryStat none e1).entry.m_ctime = invalid_ctime
    ∧ (scanEntryStat none e1).entry.m_nlink = 0 :=
  ⟨((statScan_missing e1).2 hc).1, ((statScan_missing e1).2 hc).2.1,
   ((statScan_missing e1).2 hc).2.2.2.2, ((statScan_missing e1).2 hc).2.2.2.1⟩

lemma scanEntry_synced (freq : Int) (sb : StatBuf) (e : Entry)
    (h1 : e.m_status = EntryStatus.Normal)
    (h2 : e.m_ctime = max sb.st_ctime sb.st_mtime)
    (h3 : e.m_ino = sb.st_ino) (h4 : e.m_nlink = sb.st_nlink) :
    (scanEntry freq (some sb) e).ev = NoChange
    ∧ (scanEntry freq (some sb) e).entry.m_status = e.m_status
    ∧ (scanEntry freq (some sb) e).entry.m_ctime = e.m_ctime
    ∧ (scanEntry freq (some sb) e).entry.m_ino = e.m_ino
    ∧ (scanEntry freq (some sb) e).entry.m_nlink = e.m_nlink := by
  rw [scanEntry]
  split
  · exact ⟨rfl, rfl, rfl, rfl, rfl⟩
  · split
    · exact ⟨rfl, rfl, rfl, rfl, rfl⟩
    · split <;>
      · rw [scanEntryPoll]
        split
        · split
          · exact ⟨rfl, rfl, rfl, rfl, rfl⟩
          · exact statScan_synced_fields sb _ h1 h2 h3 h4
        · exact statScan_synced_fields sb _ h1 h2 h3 h4

lemma scanEntry_none_fields (freq : Int) (e : Entry)
    (hst : e.m_status = EntryStatus.NonExistent)
    (hc : e.m_ctime = invalid_ctime) (hn : e.m_nlink = 0) :
    (scanEntry freq none e).ev = NoChange
    ∧ (scanEntry freq none e).entry.m_status = EntryStatus.NonExistent
    ∧ (scanEntry freq none e).entry.m_ctime = invalid_ctime
    ∧ (scanEntry freq none e).entry.m_nlink = 0 := by
  rw [scanEntry]
  split
  · exact ⟨rfl, hst, hc, hn⟩
  · split
    · exact ⟨rfl, hst, hc, hn⟩
    · split <;>
      · rw [scanEntryPoll]
        split
        · split
          · exact ⟨rfl, hst, hc, hn⟩
          · exact statScan_missing_fields _ hc
        · exact statScan_missing_fields _ hc

lemma scanEntry_invalid_tame (freq : Int) (st : Option StatBuf) (e : Entry)
    (h : e.m_ctime = invalid_ctime) :
    (scanEntry freq st e).ev = NoChange ∨ (scanEntry freq st e).ev = Created := by
  have key : ∀ e1 : Entry, e1.m_ctime = invalid_ctime →
      (scanEntryStat st e1).ev = NoChange ∨ (scanEntryStat st e1).ev = Created := by
    intro e1 h1
    cases st with
    | some sb =>
      rw [scanEntryStat]
      split
      · exact Or.inr rfl
      · rw [if_neg (by rintro ⟨hv, -⟩; exact hv h1)]
        exact Or.inl rfl
    | none => exact Or.inl ((statScan_missing e1).2 h1).1
  rw [scanEntry]
  split
  · exact Or.inl rfl
  · split
    · exact Or.inl rfl
    · split <;>
      · rw [scanEntryPoll]
        split
        · split
          · exact Or.inl rfl
          · exact key _ h
        · exact key _ h

lemma restartClientsGo_pending (instanceId : Option Nat) :
    ∀ cs : List Client, (∀ c ∈ cs, c.pending = NoChange) →
      ∀ c' ∈ (restartClientsGo instanceId cs).1, c'.pending = NoChange
  | [] => by simp [restartClientsGo]
  | c :: rest => by
    intro hpend c' hc'
    rw [restartClientsGo] at hc'
    have hhead := hpend c (List.mem_cons_self c rest)
    have htail := fun c'' h => hpend c'' (List.mem_cons_of_mem c h)
    split at hc' <;> [skip; split at hc'] <;> dsimp only at hc' <;>
      rcases List.mem_cons.mp hc' with h | h <;>
      first
        | exact h ▸ hhead
        | exact restartClientsGo_pending instanceId rest htail c' h

lemma restartClientsGo_allStopped (instanceId : Option Nat) :
    ∀ cs : List Client, (∀ c ∈ cs, c.watchingStopped = true) →
      (restartClientsGo instanceId cs).2.1 = 0
  | [] => by simp [restartClientsGo]
  | c :: rest => by
    intro hstop
    rw [restartClientsGo]
    have hc := hstop c (List.mem_cons_self c rest)
    have htail := restartClientsGo_allStopped instanceId rest
      (fun c' h => hstop c' (List.mem_cons_of_mem c h))
    rw [if_neg (by simp [hc])]
    split <;> dsimp only <;> exact htail

lemma restart_false_no_dispatch (freq : Int) (st : Option StatBuf)
    (instanceId : Option Nat) (e : Entry)
    (hpend : ∀ c ∈ e.m_clients, c.pending = NoChange) :
    (restartEntryScan freq st instanceId e false).dispatches = [] := by
  have hpend1 : ∀ c ∈ (restartClientsGo instanceId e.m_clients).1, c.pending = NoChange :=
    restartClientsGo_pending instanceId e.m_clients hpend
  rw [restartEntryScan.eq_def]
  by_cases hnew : (restartClientsGo instanceId e.m_clients).2.2 = 0
  · rw [if_pos hnew]
  · rw [if_neg hnew]
    dsimp only
    by_cases hwas : (restartClientsGo instanceId e.m_clients).2.1 = 0
    · rw [if_pos hwas, if_pos rfl]
      cases st with
      | some sb =>
        dsimp only
        have hev := scanEntry_synced freq sb
          { e with
              m_clients := (restartClientsGo instanceId e.m_clients).1,
              m_ctime := max sb.st_ctime sb.st_mtime,
              m_status := EntryStatus.Normal,
              m_nlink := sb.st_nlink, m_ino := sb.st_ino, msecLeft := 0 }
          rfl rfl rfl rfl
        rw [hev.1]
        refine emitEvent_dispatches_nochange _ "" ?_
        rw [scanEntry_clients]
        exact hpend1
      | none =>
        dsimp only
        have hev := scanEntry_none_fields freq
          { e with
              m_clients := (restartClientsGo instanceId e.m_clients).1,
              m_ctime := invalid_ctime,
              m_status := EntryStatus.NonExistent,
              m_nlink := 0, msecLeft := 0 }
          rfl rfl rfl
        rw [hev.1]
        refine emitEvent_dispatches_nochange _ "" ?_
        rw [scanEntry_clients]
        exact hpend1
    · rw [if_neg hwas]
      exact emitEvent_dispatches_nochange _ "" hpend1

/-- C1: `emitEvent` neither delivers to nor touches a stopped client —
(1) every stopped client's record (its `pending` bits included) passes
through `emitEvent` unchanged, so skipped events are never accumulated;
(2) every queued dispatch originates from a live, non-stopped client; and
(3) `restartEntryScan` with `notify == false` — the form `restartDirScan`
invokes — delivers nothing at restart (given the invariant that no `pending`
bits are ever stored). Hence events occurring while a client is stopped are
never delivered to it, even after `restartDirScan`. -/
theorem claim_C1 (e : Entry) (event : Nat) (fileName : String) :
    List.Forall₂ (fun c c' => c.watchingStopped = true → c' = c)
      e.m_clients (emitEvent e event fileName).1.m_clients
    ∧ (∀ d ∈ (emitEvent e event fileName).2,
        ∃ c ∈ e.m_clients, c.instanceId = some d.instanceId
          ∧ c.watchingStopped = false ∧ c.count ≠ 0)
    ∧ (∀ (freq : Int) (st : Option StatBuf) (instanceId : Option Nat) (e' : Entry),
        (∀ c ∈ e'.m_clients, c.pending = NoChange) →
        (restartEntryScan freq st instanceId e' false).dispatches = []) := by
  refine ⟨?_, ?_, ?_⟩
  · rw [emitEvent]
    exact emitEventGo_stopped_preserved _ e.m_clients event
  · rw [emitEvent]
    exact emitEventGo_dispatch_origin _ e.m_clients event
  · exact restart_false_no_dispatch

/-- Witness for C1 at a concrete input: an entry with one stopped and one
live client; the stopped client survives a `Deleted` emission untouched, and
a restart after a full stop delivers nothing. -/
theorem claim_C1_witness :
    (∀ c ∈ stoppedEntry.m_clients, c.pending = NoChange)
    ∧ (restartEntryScan 500 (some sampleStat) (some 1) stoppedEntry false).dispatches
        = [] :=
  ⟨by decide,
   (claim_C1 stoppedEntry Deleted "").2.2 500 (some sampleStat) (some 1) stoppedEntry
     (by decide)⟩

lemma emitEvent_entry_fields (e : Entry) (ev : Nat) (fn : String) :
    (emitEvent e ev fn).1.m_status = e.m_status
    ∧ (emitEvent e ev fn).1.m_ctime = e.m_ctime
    ∧ (emitEvent e ev fn).1.m_ino = e.m_ino
    ∧ (emitEvent e ev fn).1.m_nlink = e.m_nlink :=
  ⟨rfl, rfl, rfl, rfl⟩

/-- C5: for an entry whose watching was fully stopped (every client stopped,
and at least one registration restarting), `restartEntryScan` with
`notify == false` first refreshes the stored state from an immediate stat —
on an existing path: status `Normal` and the fresh ctime, inode and link
count; on a missing path: status `NonExistent`, the invalid ctime and a zero
link count — and then emits the event of the fresh classification (which,
against the same snapshot, is none); with `notify == true` it suppresses the
`Changed` and `Deleted` emissions that observing the while-stopped backlog
would otherwise fire on restart (only a `Created` can still be delivered). -/
theorem claim_C5 (freq : Int) (st : Option StatBuf) (instanceId : Option Nat) (e : Entry)
    (hstopped : ∀ c ∈ e.m_clients, c.watchingStopped = true)
    (hpend : ∀ c ∈ e.m_clients, c.pending = NoChange)
    (hnew : (restartClientsGo instanceId e.m_clients).2.2 ≠ 0) :
    ((∀ sb, st = some sb →
        (restartEntryScan freq st instanceId e false).entry.m_status = EntryStatus.Normal
        ∧ (restartEntryScan freq st instanceId e false).entry.m_ctime =
            max sb.st_ctime sb.st_mtime
        ∧ (restartEntryScan freq st instanceId e false).entry.m_ino = sb.st_ino
        ∧ (restartEntryScan freq st instanceId e false).entry.m_nlink = sb.st_nlink)
     ∧ (st = none →
        (restartEntryScan freq st instanceId e false).entry.m_status =
            EntryStatus.NonExistent
        ∧ (restartEntryScan freq st instanceId e false).entry.m_ctime = invalid_ctime
        ∧ (restartEntryScan freq st instanceId e false).entry.m_nlink = 0)
     ∧ (restartEntryScan freq st instanceId e false).dispatches = [])
    ∧ (e.m_ctime = invalid_ctime →
        ∀ d ∈ (restartEntryScan freq st instanceId e true).dispatches,
          d.signal ≠ Signal.dirty ∧ d.signal ≠ Signal.deleted) := by
  have hwas : (restartClientsGo instanceId e.m_clients).2.1 = 0 :=
    restartClientsGo_allStopped instanceId e.m_clients hstopped
  have hpend1 : ∀ c ∈ (restartClientsGo instanceId e.m_clients).1, c.pending = NoChange :=
    restartClientsGo_pending instanceId e.m_clients hpend
  refine ⟨⟨?_, ?_, restart_false_no_dispatch freq st instanceId e hpend⟩, ?_⟩
  · intro sb hsb
    subst hsb
    rw [restartEntryScan.eq_def, if_neg hnew]
    dsimp only
    rw [if_pos hwas, if_pos rfl]
    dsimp only
    have hscan := scanEntry_synced freq sb
      { e with
          m_clients := (restartClientsGo instanceId e.m_clients).1,
          m_ctime := max sb.st_ctime sb.st_mtime,
          m_status := EntryStatus.Normal,
          m_nlink := sb.st_nlink, m_ino := sb.st_ino, msecLeft := 0 }
      rfl rfl rfl rfl
    have hfields := emitEvent_entry_fields
      (scanEntry freq (some sb)
        { e with
            m_clients := (restartClientsGo instanceId e.m_clients).1,
            m_ctime := max sb.st_ctime sb.st_mtime,
            m_status := EntryStatus.Normal,
            m_nlink := sb.st_nlink, m_ino := sb.st_ino, msecLeft := 0 }).entry
      (scanEntry freq (some sb)
        { e with
            m_clients := (restartClientsGo instanceId e.m_clients).1,
            m_ctime := max sb.st_ctime sb.st_mtime,
            m_status := EntryStatus.Normal,
            m_nlink := sb.st_nlink, m_ino := sb.st_ino, msecLeft := 0 }).ev ""
    exact ⟨hfields.1.trans hscan.2.1, hfields.2.1.trans hscan.2.2.1,
      hfields.2.2.1.trans hscan.2.2.2.1, hfields.2.2.2.trans hscan.2.2.2.2⟩
  · intro hsb
    subst hsb
    rw [restartEntryScan.eq_def, if_neg hnew]
    dsimp only
    rw [if_pos hwas, if_pos rfl]
    dsimp only
    have hscan := scanEntry_none_fields freq
      { e with
          m_clients := (restartClientsGo instanceId e.m_clients).1,
          m_ctime := invalid_ctime,
          m_status := EntryStatus.NonExistent,
          m_nlink := 0, msecLeft := 0 }
      rfl rfl rfl
    have hfields := emitEvent_entry_fields
      (scanEntry freq none
        { e with
            m_clients := (restartClientsGo instanceId e.m_clients).1,
            m_ctime := invalid_ctime,
            m_status := EntryStatus.NonExistent,
            m_nlink := 0, msecLeft := 0 }).entry
      (scanEntry freq none
        { e with
            m_clients := (restartClientsGo instanceId e.m_clients).1,
            m_ctime := invalid_ctime,
            m_status := EntryStatus.NonExistent,
            m_nlink := 0, msecLeft := 0 }).ev ""
    exact ⟨hfields.1.trans hscan.2.1, hfields.2.1.trans hscan.2.2.1,
      hfields.2.2.2.trans hscan.2.2.2⟩
  · intro hinv d hd
    rw [restartEntryScan.eq_def, if_neg hnew] at hd
    dsimp only at hd
    rw [if_pos hwas] at hd
    rw [if_neg (by simp)] at hd
    dsimp only at hd
    have htame := scanEntry_invalid_tame freq st
      { e with
          m_clients := (restartClientsGo instanceId e.m_clients).1, msecLeft := 0 }
      hinv
    have hsig := emitEventGo_tame _
      (scanEntry freq st
        { e with
            m_clients := (restartClientsGo instanceId e.m_clients).1,
            msecLeft := 0 }).entry.m_clients
      (scanEntry freq st
        { e with
            m_clients := (restartClientsGo instanceId e.m_clients).1,
            msecLeft := 0 }).ev
      (by rw [scanEntry_clients]; exact hpend1) htame d hd
    rw [hsig]
    exact ⟨by decide, by decide⟩

/-- Witness for C5 at a concrete input: the stopped sample entry, restarted
by its only client against a matching snapshot. -/
theorem claim_C5_witness :
    (∀ c ∈ stoppedEntry.m_clients, c.watchingStopped = true)
    ∧ (∀ c ∈ stoppedEntry.m_clients, c.pending = NoChange)
    ∧ (restartClientsGo (some 1) stoppedEntry.m_clients).2.2 ≠ 0
    ∧ ((restartEntryScan 500 (some sampleStat) (some 1) stoppedEntry false).entry.m_status
          = EntryStatus.Normal
      ∧ (restartEntryScan 500 (some sampleStat) (some 1) stoppedEntry false).entry.m_ctime
          = max sampleStat.st_ctime sampleStat.st_mtime
      ∧ (restartEntryScan 500 (some sampleStat) (some 1) stoppedEntry false).entry.m_ino
          = sampleStat.st_ino
      ∧ (restartEntryScan 500 (some sampleStat) (some 1) stoppedEntry false).entry.m_nlink
          = sampleStat.st_nlink)
    ∧ (∀ d ∈ (restartEntryScan 500 (some sampleStat) (some 1) stoppedEntry true).dispatches,
        d.signal ≠ Signal.dirty ∧ d.signal ≠ Signal.deleted) :=
  ⟨by decide, by decide, by decide,
   ((claim_C5 500 (some sampleStat) (some 1) stoppedEntry (by decide) (by decide)
      (by decide)).1.1 sampleStat rfl),
   ((claim_C5 500 (some sampleStat) (some 1) stoppedEntry (by decide) (by decide)
      (by decide)).2 (by decide))⟩

lemma mapFind_mapSet_self :
    ∀ (t : List (String × Entry)) (P : String) (e e' : Entry),
      mapFind t P = some e → mapFind (mapSet t P e') P = some e'
  | [], P, e, e' => by intro h; simp [mapFind] at h
  | kv :: rest, P, e, e' => by
    intro h
    rw [mapFind] at h
    rw [mapSet, List.map_cons]
    by_cases hk : kv.1 = P
    · rw [if_pos hk, mapFind, if_pos rfl]
    · rw [if_neg hk] at h
      rw [if_neg hk, mapFind, if_neg hk]
      exact mapFind_mapSet_self rest P e e' h

lemma mapFind_mapRemove_self :
    ∀ (t : List (String × Entry)) (P : String),
      mapFind (mapRemove t P) P = none
  | [], P => rfl
  | kv :: rest, P => by
    rw [mapRemove, List.filter_cons]
    by_cases hk : kv.1 = P
    · rw [if_neg (by simp [hk])]
      exact mapFind_mapRemove_self rest P
    · rw [if_pos (by simp [hk]), mapFind, if_neg hk]
      exact mapFind_mapRemove_self rest P

lemma hasInstance_cons (j : Option Nat) (c : Client) (rest : List Client) :
    hasInstance j (c :: rest) = (decide (c.instanceId = j) || hasInstance j rest) := by
  rw [hasInstance, List.any_cons, hasInstance]

lemma addClientGo_notmem (i : Nat) (m : Nat) :
    ∀ cs : List Client, hasInstance (some i) cs = false →
      addClientGo i m cs = cs ++ [⟨some i, 1, m, false, NoChange⟩]
  | [] => fun _ => rfl
  | c :: rest => by
    intro h
    rw [hasInstance_cons] at h
    simp only [Bool.or_eq_false_iff, decide_eq_false_iff_not] at h
    rw [addClientGo, if_neg h.1, addClientGo_notmem i m rest h.2]
    rfl

lemma addClientGo_append_last (i : Nat) (m : Nat) (cI : Client)
    (hI : cI.instanceId = some i) :
    ∀ cs : List Client, hasInstance (some i) cs = false →
      addClientGo i m (cs ++ [cI]) =
        cs ++ [{ cI with count := cI.count + 1, m_watchModes := m }]
  | [] => by
    intro _
    rw [List.nil_append, addClientGo, if_pos hI]
    rfl
  | c :: rest => by
    intro h
    rw [hasInstance_cons] at h
    simp only [Bool.or_eq_false_iff, decide_eq_false_iff_not] at h
    rw [List.cons_append, addClientGo, if_neg h.1,
      addClientGo_append_last i m cI hI rest h.2]
    rfl

lemma removeClientGo_append_last (i : Nat) (cI : Client)
    (hI : cI.instanceId = some i) :
    ∀ cs : List Client, hasInstance (some i) cs = false →
      removeClientGo (some i) (cs ++ [cI]) =
        if cI.count - 1 = 0 then cs else cs ++ [{ cI with count := cI.count - 1 }]
  | [] => by
    intro _
    rw [List.nil_append, removeClientGo, if_pos hI]
    split <;> rfl
  | c :: rest => by
    intro h
    rw [hasInstance_cons] at h
    simp only [Bool.or_eq_false_iff, decide_eq_false_iff_not] at h
    rw [List.cons_append, removeClientGo, if_neg h.1,
      removeClientGo_append_last i cI hI rest h.2]
    split <;> rfl

lemma addEntry_found (stArg : Option StatBuf) (lsl : Bool) (I : Nat) (P : String)
    (isDir : Bool) (m : Nat) (table : List (String × Entry)) (e : Entry)
    (hqrc : strStartsWith P ":/" = false) (hdev : isRejectedDevPath P = false)
    (hnorm : normalizePath P = P) (hfind : mapFind table P = some e) :
    (addEntry stArg lsl table (some I) P none isDir m).table =
      mapSet table P { e with m_clients := addClientGo I m e.m_clients } := by
  rw [addEntry, if_neg (by simp [hqrc]), if_neg (by simp [hdev]), hnorm]
  dsimp only
  rw [hfind]
  rfl

lemma iterAdd_existing (stArg : Option StatBuf) (lsl : Bool) (I : Nat) (P : String)
    (isDir : Bool) (m : Nat) (hqrc : strStartsWith P ":/" = false)
    (hdev : isRejectedDevPath P = false) (hnorm : normalizePath P = P) :
    ∀ (k : Nat) (table : List (String × Entry)) (e : Entry) (cs : List Client)
      (cI : Client),
      mapFind table P = some e → e.m_clients = cs ++ [cI] →
      cI.instanceId = some I → hasInstance (some I) cs = false →
      mapFind (iterAdd stArg lsl (some I) P isDir m k table) P =
        some { e with m_clients := cs ++
          [if k = 0 then cI
           else { cI with count := cI.count + (k : Int), m_watchModes := m }] }
  | 0, table, e, cs, cI => by
    intro hfind hcl hI hcs
    rw [iterAdd, if_pos rfl, ← hcl, hfind]
  | Nat.succ k, table, e, cs, cI => by
    intro hfind hcl hI hcs
    rw [iterAdd]
    rw [addEntry_found stArg lsl I P isDir m table e hqrc hdev hnorm hfind]
    have hgo : addClientGo I m e.m_clients =
        cs ++ [{ cI with count := cI.count + 1, m_watchModes := m }] := by
      rw [hcl]
      exact addClientGo_append_last I m cI hI cs hcs
    have hfind1 : mapFind
        (mapSet table P { e with m_clients := addClientGo I m e.m_clients }) P =
        some { e with m_clients := addClientGo I m e.m_clients } :=
      mapFind_mapSet_self table P e _ hfind
    have := iterAdd_existing stArg lsl I P isDir m hqrc hdev hnorm k
      (mapSet table P { e with m_clients := addClientGo I m e.m_clients })
      { e with m_clients := addClientGo I m e.m_clients }
      cs { cI with count := cI.count + 1, m_watchModes := m }
      hfind1 (by rw [hgo]) hI hcs
    rw [this]
    rw [if_neg (Nat.succ_ne_zero k)]
    by_cases hk : k = 0
    · subst hk
      rw [if_pos rfl]
      norm_num
    · rw [if_neg hk]
      have : cI.count + 1 + (k : Int) = cI.count + ((Nat.succ k : Nat) : Int) := by
        push_cast
        ring
      rw [this]

lemma iterAdd_fresh (stArg : Option StatBuf) (lsl : Bool) (I : Nat) (P : String)
    (isDir : Bool) (m : Nat) (k : Nat) (table : List (String × Entry)) (e : Entry)
    (hqrc : strStartsWith P ":/" = false) (hdev : isRejectedDevPath P = false)
    (hnorm : normalizePath P = P) (hfind : mapFind table P = some e)
    (hnoI : hasInstance (some I) e.m_clients = false) (hk : 1 ≤ k) :
    mapFind (iterAdd stArg lsl (some I) P isDir m k table) P =
      some { e with m_clients := e.m_clients ++
        [⟨some I, (k : Int), m, false, NoChange⟩] } := by
  obtain ⟨k', rfl⟩ : ∃ k', k = k' + 1 := ⟨k - 1, by omega⟩
  rw [iterAdd]
  rw [addEntry_found stArg lsl I P isDir m table e hqrc hdev hnorm hfind]
  have hgo : addClientGo I m e.m_clients =
      e.m_clients ++ [⟨some I, 1, m, false, NoChange⟩] :=
    addClientGo_notmem I m e.m_clients hnoI
  have hfind1 : mapFind
      (mapSet table P { e with m_clients := addClientGo I m e.m_clients }) P =
      some { e with m_clients := addClientGo I m e.m_clients } :=
    mapFind_mapSet_self table P e _ hfind
  have := iterAdd_existing stArg lsl I P isDir m hqrc hdev hnorm k'
    (mapSet table P { e with m_clients := addClientGo I m e.m_clients })
    { e with m_clients := addClientGo I m e.m_clients }
    e.m_clients ⟨some I, 1, m, false, NoChange⟩
    hfind1 (by rw [hgo]) rfl hnoI
  rw [this]
  by_cases hk' : k' = 0
  · subst hk'
    rw [if_pos rfl]
    norm_num
  · rw [if_neg hk']
    have : (1 : Int) + (k' : Int) = ((k' + 1 : Nat) : Int) := by
      push_cast
      ring
    rw [this]

lemma entryLookup_pos (t : List (String × Entry)) (P : String)
    (hne : strIsEmpty P = false) (hnorm : normalizePath P = P) :
    entryLookup t P = mapFind t P := by
  rw [entryLookup, if_neg (by simp [hne]), hnorm]

lemma removeEntryGo_client_step (parentDir : String → String) (f : Nat) (s : DWState)
    (I : Nat) (P : String) (e' : Entry) (cs : List Client) (cI : Client)
    (hne : strIsEmpty P = false) (hnorm : normalizePath P = P)
    (hfind : mapFind s.m_mapEntries P = some e') (hpath : e'.path = P)
    (hcl : e'.m_clients = cs ++ [cI]) (hI : cI.instanceId = some I)
    (hcs : hasInstance (some I) cs = false) (hdr : s.delayRemove = false) :
    (cI.count - 1 ≠ 0 →
        mapFind (removeEntryGo parentDir (f + 1) s (some I) P none).m_mapEntries P =
          some { e' with m_clients := cs ++ [{ cI with count := cI.count - 1 }] }
        ∧ (removeEntryGo parentDir (f + 1) s (some I) P none).delayRemove = false)
    ∧ (cI.count - 1 = 0 → cs = [] → e'.m_entries = [] →
        mapFind (removeEntryGo parentDir (f + 1) s (some I) P none).m_mapEntries P =
          none)
    ∧ (cI.count - 1 = 0 → ¬(cs = [] ∧ e'.m_entries = []) →
        mapFind (removeEntryGo parentDir (f + 1) s (some I) P none).m_mapEntries P =
          some { e' with m_clients := cs }
        ∧ (removeEntryGo parentDir (f + 1) s (some I) P none).delayRemove = false) := by
  have hlook : entryLookup s.m_mapEntries P = some e' := by
    rw [entryLookup_pos _ _ hne hnorm, hfind]
  have hrm : removeClientGo (some I) e'.m_clients =
      if cI.count - 1 = 0 then cs else cs ++ [{ cI with count := cI.count - 1 }] := by
    rw [hcl]
    exact removeClientGo_append_last I cI hI cs hcs
  refine ⟨fun hcn => ?_, fun hc0 hcs0 hent => ?_, fun hc0 hne2 => ?_⟩
  · rw [removeEntryGo, hlook]
    dsimp only [Entry.removeClient]
    rw [hrm, if_neg hcn]
    rw [if_pos (Or.inl (by simp))]
    dsimp only
    rw [hpath]
    exact ⟨mapFind_mapSet_self s.m_mapEntries P e' _ hfind, hdr⟩
  · rw [removeEntryGo, hlook]
    dsimp only [Entry.removeClient]
    rw [hrm, if_pos hc0]
    subst hcs0
    rw [if_neg (by simp [hent]), if_neg (by simp [hdr])]
    dsimp only
    rw [hpath]
    exact mapFind_mapRemove_self _ P
  · rw [removeEntryGo, hlook]
    dsimp only [Entry.removeClient]
    rw [hrm, if_pos hc0]
    have hor : cs.isEmpty = false ∨ e'.m_entries.isEmpty = false := by
      rcases Decidable.em (cs = []) with h | h
      · right
        have : ¬ e'.m_entries = [] := fun h2 => hne2 ⟨h, h2⟩
        simpa [List.isEmpty_iff] using this
      · left
        simpa [List.isEmpty_iff] using h
    rw [if_pos hor]
    dsimp only
    rw [hpath]
    exact ⟨mapFind_mapSet_self s.m_mapEntries P e' _ hfind, hdr⟩

lemma iterRemove_add (parentDir : String → String) (fl : Nat) (i : Option Nat)
    (P : String) :
    ∀ (a b : Nat) (s : DWState),
      iterRemove parentDir fl i P (a + b) s =
        iterRemove parentDir fl i P b (iterRemove parentDir fl i P a s)
  | 0, b, s => by rw [Nat.zero_add]; rfl
  | Nat.succ a, b, s => by
    rw [Nat.succ_add, iterRemove, iterRemove]
    exact iterRemove_add parentDir fl i P a b _

lemma iterRemove_steps (parentDir : String → String) (f : Nat) (I : Nat) (P : String)
    (hne : strIsEmpty P = false) (hnorm : normalizePath P = P) :
    ∀ (j : Nat) (s : DWState) (e' : Entry) (cs : List Client) (cI : Client),
      mapFind s.m_mapEntries P = some e' → e'.path = P → s.delayRemove = false →
      e'.m_clients = cs ++ [cI] → cI.instanceId = some I →
      hasInstance (some I) cs = false → (j : Int) < cI.count →
      mapFind (iterRemove parentDir (f + 1) (some I) P j s).m_mapEntries P =
        some { e' with m_clients := cs ++ [{ cI with count := cI.count - (j : Int) }] }
      ∧ (iterRemove parentDir (f + 1) (some I) P j s).delayRemove = false
  | 0, s, e', cs, cI => by
    intro hfind hpath hdr hcl hI hcs hj
    have hrec : ({ cI with count := cI.count - ((0 : Nat) : Int) } : Client) = cI := by
      obtain ⟨a, b, c, d, e⟩ := cI
      simp
    rw [iterRemove, hrec, ← hcl, hfind]
    exact ⟨rfl, hdr⟩
  | Nat.succ j, s, e', cs, cI => by
    intro hfind hpath hdr hcl hI hcs hj
    rw [iterRemove]
    have hstep := (removeEntryGo_client_step parentDir f s I P e' cs cI hne hnorm
      hfind hpath hcl hI hcs hdr).1 (by push_cast at hj ⊢; omega)
    have hIH := iterRemove_steps parentDir f I P hne hnorm j
      (removeEntryGo parentDir (f + 1) s (some I) P none)
      { e' with m_clients := cs ++ [{ cI with count := cI.count - 1 }] }
      cs { cI with count := cI.count - 1 }
      hstep.1 hpath hstep.2 rfl hI hcs (by push_cast at hj ⊢; omega)
    have hcnt : ({ cI with count := cI.count - 1 } : Client).count - (j : Int) =
        cI.count - ((Nat.succ j : Nat) : Int) := by
      push_cast
      ring
    rw [hcnt] at hIH
    exact hIH

/-- C3: for a watcher instance `I` that is not yet a client of path `P`'s
entry, `k ≥ 1` registrations of `P` by `I` followed by `k` removals leave `I`
no longer a client of `P`'s entry — the `Client` record is erased exactly
when its count reaches zero: after `j < k` removals the record is still there
with count `k − j`, and the `k`-th removal erases it — and if the entry then
has no other clients and no sub-entries, the entry is removed from the entry
table (shown outside a dispatch pass, i.e. with `delayRemove` unset). -/
theorem claim_C3 (parentDir : String → String) (f : Nat) (stArg : Option StatBuf)
    (lsl : Bool) (table : List (String × Entry)) (P : String) (e : Entry)
    (I : Nat) (k : Nat) (isDir : Bool) (m : Nat) (rl : List String) (n : Int)
    (hqrc : strStartsWith P ":/" = false) (hdev : isRejectedDevPath P = false)
    (hne : strIsEmpty P = false) (hnorm : normalizePath P = P)
    (hfind : mapFind table P = some e) (hpath : e.path = P)
    (hnoI : hasInstance (some I) e.m_clients = false) (hk : 1 ≤ k) :
    (∀ e2, mapFind (iterRemove parentDir (f + 1) (some I) P k
        (DWState.mk (iterAdd stArg lsl (some I) P isDir m k table) false rl n)
        ).m_mapEntries P = some e2 →
      hasInstance (some I) e2.m_clients = false)
    ∧ (e.m_clients = [] → e.m_entries = [] →
        mapFind (iterRemove parentDir (f + 1) (some I) P k
          (DWState.mk (iterAdd stArg lsl (some I) P isDir m k table) false rl n)
          ).m_mapEntries P = none)
    ∧ (∀ j, j < k →
        mapFind (iterRemove parentDir (f + 1) (some I) P j
          (DWState.mk (iterAdd stArg lsl (some I) P isDir m k table) false rl n)
          ).m_mapEntries P =
          some { e with m_clients := e.m_clients ++
            [⟨some I, (k : Int) - (j : Int), m, false, NoChange⟩] }) := by
  obtain ⟨k', rfl⟩ : ∃ k', k = k' + 1 := ⟨k - 1, by omega⟩
  have hadds := iterAdd_fresh stArg lsl I P isDir m (k' + 1) table e hqrc hdev hnorm
    hfind hnoI hk
  have hsteps : ∀ j : Nat, (j : Int) < ((k' + 1 : Nat) : Int) →
      mapFind (iterRemove parentDir (f + 1) (some I) P j
        (DWState.mk (iterAdd stArg lsl (some I) P isDir m (k' + 1) table) false rl n)
        ).m_mapEntries P =
        some { e with m_clients := e.m_clients ++
          [{ (⟨some I, ((k' + 1 : Nat) : Int), m, false, NoChange⟩ : Client) with
              count := ((k' + 1 : Nat) : Int) - (j : Int) }] }
      ∧ (iterRemove parentDir (f + 1) (some I) P j
        (DWState.mk (iterAdd stArg lsl (some I) P isDir m (k' + 1) table) false rl n)
        ).delayRemove = false := by
    intro j hj
    exact iterRemove_steps parentDir f I P hne hnorm j _
      { e with m_clients := e.m_clients ++
          [⟨some I, ((k' + 1 : Nat) : Int), m, false, NoChange⟩] }
      e.m_clients ⟨some I, ((k' + 1 : Nat) : Int), m, false, NoChange⟩
      hadds hpath rfl rfl rfl hnoI hj
  have hmid := hsteps k' (by push_cast; omega)
  have hsplit : iterRemove parentDir (f + 1) (some I) P (k' + 1)
      (DWState.mk (iterAdd stArg lsl (some I) P isDir m (k' + 1) table) false rl n) =
      removeEntryGo parentDir (f + 1)
        (iterRemove parentDir (f + 1) (some I) P k'
          (DWState.mk (iterAdd stArg lsl (some I) P isDir m (k' + 1) table) false rl n))
        (some I) P none := by
    rw [iterRemove_add parentDir (f + 1) (some I) P k' 1]
    rfl
  have hfinal := removeEntryGo_client_step parentDir f
    (iterRemove parentDir (f + 1) (some I) P k'
      (DWState.mk (iterAdd stArg lsl (some I) P isDir m (k' + 1) table) false rl n))
    I P
    { e with m_clients := e.m_clients ++
        [{ (⟨some I, ((k' + 1 : Nat) : Int), m, false, NoChange⟩ : Client) with
            count := ((k' + 1 : Nat) : Int) - (k' : Int) }] }
    e.m_clients
    { (⟨some I, ((k' + 1 : Nat) : Int), m, false, NoChange⟩ : Client) with
        count := ((k' + 1 : Nat) : Int) - (k' : Int) }
    hne hnorm hmid.1 hpath rfl rfl hnoI hmid.2
  have hz : ({ (⟨some I, ((k' + 1 : Nat) : Int), m, false, NoChange⟩ : Client) with
      count := ((k' + 1 : Nat) : Int) - (k' : Int) } : Client).count - 1 = 0 := by
    push_cast
    ring
  refine ⟨?_, ?_, ?_⟩
  · intro e2 h2
    rw [hsplit] at h2
    by_cases hemp : e.m_clients = [] ∧ e.m_entries = []
    · rw [hfinal.2.1 hz hemp.1 hemp.2] at h2
      exact absurd h2 (by simp)
    · rw [(hfinal.2.2 hz hemp).1] at h2
      have : e2 = { e with m_clients := e.m_clients } := by
        injection h2.symm
      rw [this]
      exact hnoI
  · intro hc0 he0
    rw [hsplit]
    exact hfinal.2.1 hz hc0 he0
  · intro j hj
    have := (hsteps j (by push_cast; omega)).1
    rw [this]

/-- Witness for C3 at a concrete input: two registrations and two removals of
"/tmp/f" by instance 1 on a table holding a clientless entry; the entry ends
up removed. -/
theorem claim_C3_witness :
    strStartsWith "/tmp/f" ":/" = false
    ∧ isRejectedDevPath "/tmp/f" = false
    ∧ mapFind [("/tmp/f", sampleEntry)] "/tmp/f" = some sampleEntry
    ∧ hasInstance (some 1) sampleEntry.m_clients = false
    ∧ (sampleEntry.m_clients = [] → sampleEntry.m_entries = [] →
        mapFind (iterRemove (fun _ => "/tmp") 1 (some 1) "/tmp/f" 2
          (DWState.mk
            (iterAdd (some sampleStat) false (some 1) "/tmp/f" false 0 2
              [("/tmp/f", sampleEntry)]) false [] 1)).m_mapEntries "/tmp/f" = none) :=
  ⟨by decide, by decide, by decide, by decide,
   (claim_C3 (fun _ => "/tmp") 0 (some sampleStat) false [("/tmp/f", sampleEntry)]
      "/tmp/f" sampleEntry 1 2 false 0 [] 1 (by decide) (by decide) (by decide)
      (by decide) (by decide) (by decide) (by decide) (by decide)).2.1⟩

end KDirWatchModel
